import Mathlib

/-!
Verification of the suppression filter (lib/suppressions.cpp): the data
model, the record validator, the line and XML parsers, the glob matcher and
the suppression matcher are embedded shallowly, and the specification's
claims about them are settled as theorems.
-/

set_option autoImplicit false

/-- One exemption rule, `Suppressions::Suppression`.  The field defaults
(`lineNumber = 0`, `matched = false`) are modelled from the spec's data
model (the struct declaration lives in the missing header): `lineNumber`
"any" is `<= 0`, `matched` starts false. -/
structure Suppression where
  errorId : String
  fileName : String
  lineNumber : Int
  symbolName : String
  matched : Bool
deriving DecidableEq, Repr

/-- One diagnostic, `Suppressions::ErrorMessage` (external record; the
struct declaration lives in the missing header, fields modelled from the
spec: `errorId`, `fileName`, `lineNumber`, `symbolNames`). -/
structure ErrorMessage where
  errorId : String
  fileName : String
  lineNumber : Int
  symbolNames : String
deriving DecidableEq, Repr

/-- `std::string::find(needle) != std::string::npos` on character lists:
`needle` occurs contiguously inside `hay`. -/
def hasSubstring (hay needle : List Char) : Bool :=
  match hay with
  | [] => needle.isEmpty
  | c :: t => needle.isPrefixOf (c :: t) || hasSubstring t needle

namespace Suppressions

/-- `Suppressions::Suppression::isMatch`: the four field checks in source
order; each failing check returns false immediately, and only the final
success assigns `matched = true`.  The returned record is the (possibly
updated) rule, making the C++ in-place mutation explicit. -/
def isMatch (s : Suppression) (em : ErrorMessage) : Bool × Suppression :=
  if s.errorId ≠ "" ∧ s.errorId ≠ em.errorId then (false, s)
  else if s.fileName ≠ "" ∧ s.fileName ≠ em.fileName then (false, s)
  else if 0 < s.lineNumber ∧ s.lineNumber ≠ em.lineNumber then (false, s)
  else if s.symbolName ≠ "" ∧
      hasSubstring em.symbolNames.data (s.symbolName ++ "\n").data = false then
    (false, s)
  else (true, { s with matched := true })

/-- `Suppressions::isSuppressed`: scan the list in order, stop at the first
rule whose `isMatch` succeeds; each visited rule is replaced by the record
`isMatch` returned (the in-place mutation of the C++ range-for). -/
def isSuppressed (l : List Suppression) (em : ErrorMessage) : Bool × List Suppression :=
  match l with
  | [] => (false, [])
  | s :: rest =>
    let r := isMatch s em
    if r.1 then (true, r.2 :: rest)
    else
      let r2 := isSuppressed rest em
      (r2.1, r.2 :: r2.2)

/-- `Suppressions::isSuppressedLocal`: the source gives it a body identical
to `isSuppressed`, repeated here verbatim. -/
def isSuppressedLocal (l : List Suppression) (em : ErrorMessage) : Bool × List Suppression :=
  match l with
  | [] => (false, [])
  | s :: rest =>
    let r := isMatch s em
    if r.1 then (true, r.2 :: rest)
    else
      let r2 := isSuppressedLocal rest em
      (r2.1, r.2 :: r2.2)

/-- One character of an errorId is acceptable when `std::isalnum` (C
locale: ASCII letter or digit) holds or it is an underscore.  A byte with
the high bit set fails the source's `errorId[pos] < 0` signed-char guard
and `isalnum` alike, so it is rejected on every path; `Char.isAlphanum`
(ASCII-only) captures both. -/
def validIdChar (c : Char) : Bool := c.isAlphanum || c = '_'

/-- The validation loop of `Suppressions::addSuppression`: walk the id
with its position, reject an invalid character anywhere and a digit at
position 0.  Returns true when some check fires (the C++ early return). -/
def findBadChar : List Char → Nat → Bool
  | [], _ => false
  | c :: t, pos =>
    if !(validIdChar c) then true
    else if pos = 0 && c.isDigit then true
    else findBadChar t (pos + 1)

/-- `Suppressions::addSuppression`: validate `errorId`, then append. -/
def addSuppression (s : Suppression) (l : List Suppression) :
    String × List Suppression :=
  if s.errorId = "" then ("Failed to add suppression. No id.", l)
  else if s.errorId ≠ "*" ∧ findBadChar s.errorId.data 0 = true then
    ("Failed to add suppression. Invalid id \"" ++ s.errorId ++ "\"", l)
  else ("", l ++ [s])

end Suppressions

/-- The identifier shape the spec names for valid errorIds:
`[A-Za-z_][A-Za-z0-9_]*`. -/
def matchesIdentRegex (s : String) : Bool :=
  match s.data with
  | [] => false
  | c :: t => (c.isAlpha || c = '_') && t.all (fun x => x.isAlphanum || x = '_')

/-- An errorId that `addSuppression` accepts: the literal star or an
identifier. -/
def acceptedId (e : String) : Bool := e = "*" || matchesIdentRegex e

/-- The inner pattern scan of `matchglob`: walk the pattern suffix `p`
against the name suffix `n`, threading the backtrack stack.  Returns the
final `matching` flag, the final name suffix, and the stack.  On `*` the
name cursor jumps forward to the next occurrence of the character after
the star (or to the end), and the pre-jump state is pushed when the name
is not exhausted. -/
def globInner : List Char → List Char → List (List Char × List Char) →
    Bool × List Char × List (List Char × List Char)
  | [], n, bt => (true, n, bt)
  | c :: rest, n, bt =>
    if c = '*' then
      match rest with
      | [] => (true, [], bt)
      | c2 :: _ =>
        let n2 := n.dropWhile (fun x => x ≠ c2)
        let bt2 := if n2 ≠ [] then (c :: rest, n2) :: bt else bt
        globInner rest n2 bt2
    else if c = '?' then
      match n with
      | [] => (false, n, bt)
      | _ :: ns => globInner rest ns bt
    else
      match n with
      | [] => (false, n, bt)
      | x :: ns => if x = c then globInner rest ns bt else (false, n, bt)

/-- The outer retry loop of `matchglob`: scan, succeed when the scan ends
with `matching` and the name exhausted, otherwise pop the backtrack stack,
advance the restored name cursor by one and retry.  The `for (;;)` loop of
the source is given explicit fuel; `none` means the fuel ran out. -/
def globStep : Nat → List Char → List Char → List (List Char × List Char) →
    Option Bool
  | 0, _, _, _ => none
  | fuel + 1, p, n, bt =>
    let r := globInner p n bt
    if r.1 = true ∧ r.2.1 = [] then some true
    else
      match r.2.2 with
      | [] => some false
      | (p2, n2) :: rest => globStep fuel p2 n2.tail rest

/-- `matchglob(pattern, name)`: the fuel bounds the number of backtracks,
which never exceeds one per (pattern position, name position) pair. -/
def matchglob (pattern name : String) : Option Bool :=
  globStep ((pattern.length + 1) * (name.length + 1) + 1) pattern.data name.data []

/-- The first `std::getline(lineStream, errorId, ':')` of
`addSuppressionLine`: everything before the first colon, and the remainder
after it when a colon exists. -/
def splitFirstColonL : List Char → List Char × Option (List Char)
  | [] => ([], none)
  | c :: t =>
    if c = ':' then ([], some t)
    else
      let r := splitFirstColonL t
      (c :: r.1, r.2)

/-- `std::string::rfind(':')`: the index of the last colon. -/
def rfindColon : List Char → Option Nat
  | [] => none
  | c :: t =>
    match rfindColon t with
    | some i => some (i + 1)
    | none => if c = ':' then some 0 else none

/-- C-locale whitespace, as skipped by `istream >> int`. -/
def isSpaceC (c : Char) : Bool :=
  c = ' ' || c = '\t' || c = '\n' || c = '\x0B' || c = '\x0C' || c = '\r'

/-- Value of a digit run. -/
def natOfDigits (l : List Char) : Nat :=
  l.foldl (fun a c => a * 10 + (c.toNat - 48)) 0

/-- Signed digit run after the optional sign. -/
def parseIntDigits (l : List Char) (sign : Int) : Int :=
  let ds := l.takeWhile Char.isDigit
  if ds.isEmpty then 0 else sign * (natOfDigits ds : Int)

/-- `istringstream >> int` (and `atoi`): skip whitespace, optional sign,
longest digit prefix; no digits gives 0 (the C++11 failure value, which
the callers' `> 0` tests treat as "no line number").  Overflow is not
modelled: no claim involves values near `INT_MAX`. -/
def parseIntPrefix (l : List Char) : Int :=
  match l.dropWhile isSpaceC with
  | ('-' :: t) => parseIntDigits t (-1)
  | ('+' :: t) => parseIntDigits t 1
  | t => parseIntDigits t 1

/-- Modelled from the spec: the path-separator normalization performed by
the external path utility (`Path::fromNativeSeparators`, outside this
extract) — native backslash separators become the canonical slash. -/
def fromNativeSeparators (s : String) : String :=
  String.mk (s.data.map (fun c => if c = '\\' then '/' else c))

namespace Suppressions

/-- The line-number heuristic block of `Suppressions::addSuppressionLine`,
applied to the tentative fileName: when it has a last colon with no dot at
or after it, the suffix after that colon goes through `istream >> int`
into `lineNumber` unconditionally, and is stripped from the fileName only
when the parsed value is positive. -/
def parseFileLinePart (eid fn : List Char) : Suppression :=
  match rfindColon fn with
  | none => ⟨String.mk eid, String.mk fn, 0, "", false⟩
  | some pos =>
    if '.' ∈ fn.drop pos then ⟨String.mk eid, String.mk fn, 0, "", false⟩
    else if 0 < parseIntPrefix (fn.drop (pos + 1)) then
      ⟨String.mk eid, String.mk (fn.take pos), parseIntPrefix (fn.drop (pos + 1)), "", false⟩
    else ⟨String.mk eid, String.mk fn, parseIntPrefix (fn.drop (pos + 1)), "", false⟩

/-- The record-building part of `Suppressions::addSuppressionLine`: the
first `getline` splits at the first colon into errorId and remainder, the
second `getline` reads the remainder up to a line break as the tentative
fileName, and the heuristic block above finishes the record.  A line with
no colon leaves every field but errorId at its default. -/
def parseSuppressionLine (line : List Char) : Suppression :=
  match splitFirstColonL line with
  | (eid, none) => ⟨String.mk eid, "", 0, "", false⟩
  | (eid, some rest) => parseFileLinePart eid (rest.takeWhile (fun c => c ≠ '\n'))

/-- `Suppressions::addSuppressionLine`: parse, normalize the fileName's
separators, validate and append. -/
def addSuppressionLine (line : String) (l : List Suppression) :
    String × List Suppression :=
  let s := parseSuppressionLine line.data
  addSuppression { s with fileName := fromNativeSeparators s.fileName } l

end Suppressions

/-- One XML element as traversed by the parser: tag name, text content
(`GetText()`, absent when the element has no text child), and the child
elements in document order. -/
structure XMLNode where
  name : String
  text : Option String
  children : List XMLNode

/-- Outcome of `tinyxml2::XMLDocument::LoadFile`: the file was missing
(`XML_ERROR_FILE_NOT_FOUND`), some other load failure (empty or malformed
file, in which case the document has no root element), or a loaded
document with its root element. -/
inductive XMLLoadResult where
  | fileNotFound : XMLLoadResult
  | loadError : XMLLoadResult
  | ok : XMLNode → XMLLoadResult

namespace Suppressions

/-- The inner loop of `Suppressions::parseXmlFile`: populate one record
from a child element's sub-elements by tag name; missing text content
defaults to the empty string, `lineNumber` goes through `atoi`. -/
def readSuppressionElement (e : XMLNode) : Suppression :=
  e.children.foldl
    (fun s e2 =>
      let text := e2.text.getD ""
      if e2.name = "id" then { s with errorId := text }
      else if e2.name = "fileName" then { s with fileName := text }
      else if e2.name = "lineNumber" then { s with lineNumber := parseIntPrefix text.data }
      else if e2.name = "symbolName" then { s with symbolName := text }
      else s)
    ⟨"", "", 0, "", false⟩

/-- One step of the outer loop of `parseXmlFile`: the source's
`if (std::strcmp(e->Name(), "suppress"))` is true exactly when the tag is
NOT the literal `suppress`, so such children are read and passed to
`addSuppression` (whose return value is discarded) and real `suppress`
children are skipped. -/
def xmlStep (acc : List Suppression) (e : XMLNode) : List Suppression :=
  if e.name ≠ "suppress" then (Suppressions.addSuppression (readSuppressionElement e) acc).2
  else acc

/-- `Suppressions::parseXmlFile`: only `XML_ERROR_FILE_NOT_FOUND` takes
the error branch; any other load failure leaves the document without a
root element and the unconditional `rootnode->FirstChildElement()` then
dereferences a null pointer, modelled as `none`; on a loaded document the
root's children are folded over and the empty string returned. -/
def parseXmlFile : XMLLoadResult → List Suppression → Option (String × List Suppression)
  | XMLLoadResult.fileNotFound, l => some ("File not found", l)
  | XMLLoadResult.loadError, _ => none
  | XMLLoadResult.ok root, l => some ("", root.children.foldl xmlStep l)

end Suppressions

/-- The rules a document makes the parser discover: one populated record
per root child whose tag is not `suppress` (the inverted comparison). -/
def discoveredRules (root : XMLNode) : List Suppression :=
  (root.children.filter (fun e => e.name ≠ "suppress")).map
    Suppressions.readSuppressionElement

/-- Accumulate the current token (reversed) until its newline; characters
after the last newline form no complete entry. -/
def symbolEntriesAux : List Char → List Char → List String
  | [], _ => []
  | c :: t, acc =>
    if c = '\n' then String.mk acc.reverse :: symbolEntriesAux t []
    else symbolEntriesAux t (c :: acc)

/-- Modelled from the spec: the diagnostic's symbol list, `symbolNames`
being "a newline-terminated concatenation of zero or more symbol tokens
(each token followed by a newline, including the last)"; the entries are
the complete newline-terminated tokens. -/
def symbolEntries (s : String) : List String :=
  symbolEntriesAux s.data []

/-- A basic-latin letter is not a digit (the two ASCII ranges are
disjoint). -/
theorem isAlpha_not_digit (c : Char) (h : c.isAlpha = true) : c.isDigit = false := by
  simp only [Char.isAlpha, Char.isUpper, Char.isLower, Char.isDigit, Bool.or_eq_true,
    Bool.and_eq_true, decide_eq_true_eq] at h ⊢
  cases hb : (decide (c.val ≥ 48) && decide (c.val ≤ 57)) with
  | false => rfl
  | true =>
    rw [Bool.and_eq_true, decide_eq_true_eq, decide_eq_true_eq] at hb
    obtain ⟨h3, h4⟩ := hb
    have a3 : c.val.toNat ≤ (57 : Nat) := UInt32.toNat_le_of_le (by decide) h4
    rcases h with ⟨h1, h2⟩ | ⟨h1, h2⟩
    · have a1 : (65 : Nat) ≤ c.val.toNat := UInt32.le_toNat_of_le (by decide) h1
      omega
    · have a1 : (97 : Nat) ≤ c.val.toNat := UInt32.le_toNat_of_le (by decide) h1
      omega

/-- A rule that fails `isMatch` is returned unchanged: `matched` is only
assigned on the success path. -/
theorem isMatch_false_eq (s : Suppression) (em : ErrorMessage)
    (h : (Suppressions.isMatch s em).1 = false) : (Suppressions.isMatch s em).2 = s := by
  unfold Suppressions.isMatch at *
  split_ifs at * <;> simp_all

/-- A rule that passes `isMatch` is returned with `matched` set and no
other field changed. -/
theorem isMatch_true_eq (s : Suppression) (em : ErrorMessage)
    (h : (Suppressions.isMatch s em).1 = true) :
    (Suppressions.isMatch s em).2 = { s with matched := true } := by
  unfold Suppressions.isMatch at *
  split_ifs at *
  simp_all

/-- Characterization of `isMatch`: the conjunction of the four field
constraints as the spec words them. -/
theorem isMatch_fst_iff (s : Suppression) (em : ErrorMessage) :
    (Suppressions.isMatch s em).1 = true ↔
      (s.errorId = "" ∨ s.errorId = em.errorId) ∧
      (s.fileName = "" ∨ s.fileName = em.fileName) ∧
      (s.lineNumber ≤ 0 ∨ s.lineNumber = em.lineNumber) ∧
      (s.symbolName = "" ∨
        hasSubstring em.symbolNames.data (s.symbolName ++ "\n").data = true) := by
  unfold Suppressions.isMatch
  split_ifs with h1 h2 h3 h4
  · exact iff_of_false (by simp) (fun h => h.1.elim h1.1 h1.2)
  · exact iff_of_false (by simp) (fun h => h.2.1.elim h2.1 h2.2)
  · exact iff_of_false (by simp)
      (fun h => h.2.2.1.elim (fun hle => absurd h3.1 (not_lt.mpr hle)) h3.2)
  · refine iff_of_false (by simp) (fun h => h.2.2.2.elim h4.1 (fun ht => ?_))
    rw [h4.2] at ht
    exact Bool.false_ne_true ht
  · refine iff_of_true rfl ⟨?_, ?_, ?_, ?_⟩
    · rcases not_and_or.mp h1 with h | h
      · exact Or.inl (not_not.mp h)
      · exact Or.inr (not_not.mp h)
    · rcases not_and_or.mp h2 with h | h
      · exact Or.inl (not_not.mp h)
      · exact Or.inr (not_not.mp h)
    · rcases not_and_or.mp h3 with h | h
      · exact Or.inl (not_lt.mp h)
      · exact Or.inr (not_not.mp h)
    · rcases not_and_or.mp h4 with h | h
      · exact Or.inl (not_not.mp h)
      · exact Or.inr (by simpa using h)

/-- The empty needle is a substring of anything, as `std::string::find`
reports. -/
theorem hasSubstring_nil (x : List Char) : hasSubstring x [] = true := by
  cases x <;> simp [hasSubstring, List.isPrefixOf]

/-- A list is a `isPrefixOf`-prefix of itself extended on the right. -/
theorem isPrefixOf_append_self (b c : List Char) : b.isPrefixOf (b ++ c) = true := by
  induction b with
  | nil => simp [List.isPrefixOf]
  | cons x t ih => simp [List.isPrefixOf, ih]

/-- A middle segment is always found as a substring. -/
theorem hasSubstring_append (a b c : List Char) :
    hasSubstring (a ++ (b ++ c)) b = true := by
  induction a with
  | nil =>
    cases b with
    | nil => exact hasSubstring_nil _
    | cons d bs => simp [hasSubstring, isPrefixOf_append_self]
  | cons x t ih => simp [hasSubstring, ih]

/-- Appending two strings concatenates their character lists. -/
theorem data_append (a b : String) : (a ++ b).data = a.data ++ b.data := by
  cases a
  cases b
  rfl

/-- Away from position zero, the validation loop succeeds exactly when
every remaining character is a valid identifier character. -/
theorem findBadChar_pos (t : List Char) : ∀ pos : Nat, pos ≠ 0 →
    (Suppressions.findBadChar t pos = false ↔
      ∀ c ∈ t, Suppressions.validIdChar c = true) := by
  induction t with
  | nil => intro pos _; simp [Suppressions.findBadChar]
  | cons c t ih =>
    intro pos hpos
    simp only [Suppressions.findBadChar]
    by_cases hv : Suppressions.validIdChar c = true
    · have hdec : (decide (pos = 0) && c.isDigit) = false := by
        simp [hpos]
      simp [hv, hdec, ih (pos + 1) (by omega)]
    · simp only [Bool.not_eq_true] at hv
      simp [hv]

/-- At position zero the loop also rejects a leading digit, so success is
exactly the spec's identifier shape: first character a letter or
underscore, the rest letters, digits or underscores. -/
theorem findBadChar_zero (c : Char) (t : List Char) :
    Suppressions.findBadChar (c :: t) 0 = false ↔
      ((c.isAlpha || c = '_') = true ∧ ∀ x ∈ t, Suppressions.validIdChar x = true) := by
  simp only [Suppressions.findBadChar]
  by_cases hv : Suppressions.validIdChar c = true
  · by_cases hd : c.isDigit = true
    · have hA : c.isAlpha = false := by
        cases ha : c.isAlpha
        · rfl
        · rw [isAlpha_not_digit c ha] at hd
          exact absurd hd (by simp)
      have hU : c ≠ '_' := by
        intro he
        rw [he] at hd
        exact absurd hd (by decide)
      simp [hv, hd, hA, hU]
    · simp only [Bool.not_eq_true] at hd
      have hAU : (c.isAlpha || c = '_') = true := by
        have := hv
        simp only [Suppressions.validIdChar, Char.isAlphanum, hd, Bool.or_false] at this
        simpa using this
      simp [hv, hd, hAU, findBadChar_pos t 1 (by omega)]
  · simp only [Bool.not_eq_true] at hv
    have hA : c.isAlpha = false := by
      cases ha : c.isAlpha
      · rfl
      · have : Suppressions.validIdChar c = true := by
          simp [Suppressions.validIdChar, Char.isAlphanum, ha]
        rw [this] at hv
        exact absurd hv (by simp)
    have hU : c ≠ '_' := by
      intro he
      have : Suppressions.validIdChar c = true := by simp [Suppressions.validIdChar, he]
      rw [this] at hv
      exact absurd hv (by simp)
    simp [hv, hA, hU]

/-- A record with an accepted errorId is appended with an empty error
string. -/
theorem addSuppression_valid (s : Suppression) (l : List Suppression)
    (h : acceptedId s.errorId = true) :
    Suppressions.addSuppression s l = ("", l ++ [s]) := by
  simp only [acceptedId, Bool.or_eq_true, decide_eq_true_eq] at h
  rcases h with h | h
  · simp [Suppressions.addSuppression, h]
  · have hne : s.errorId ≠ "" := by
      intro he
      rw [he] at h
      exact absurd h (by decide)
    cases hdata : s.errorId.data with
    | nil =>
      exact absurd (by cases hs : s.errorId; simp_all) hne
    | cons c t =>
      have hregex := h
      unfold matchesIdentRegex at hregex
      rw [hdata] at hregex
      simp only [Bool.and_eq_true, List.all_eq_true] at hregex
      have hfbc : Suppressions.findBadChar s.errorId.data 0 = false := by
        rw [hdata]
        exact (findBadChar_zero c t).mpr ⟨hregex.1, fun x hx => by
          have := hregex.2 x hx
          simpa [Suppressions.validIdChar] using this⟩
      simp [Suppressions.addSuppression, hne, hfbc]

/-- A record with a rejected errorId is not appended; the non-empty error
message contains the offending id. -/
theorem addSuppression_invalid (s : Suppression) (l : List Suppression)
    (h : acceptedId s.errorId = false) :
    (Suppressions.addSuppression s l).1 ≠ "" ∧
    hasSubstring (Suppressions.addSuppression s l).1.data s.errorId.data = true ∧
    (Suppressions.addSuppression s l).2 = l := by
  simp only [acceptedId, Bool.or_eq_false_iff, decide_eq_false_iff_not] at h
  obtain ⟨hstar, hregex⟩ := h
  by_cases he : s.errorId = ""
  · refine ⟨?_, ?_, ?_⟩ <;> simp [Suppressions.addSuppression, he, hasSubstring_nil]
  · have hfbc : Suppressions.findBadChar s.errorId.data 0 = true := by
      cases hdata : s.errorId.data with
      | nil => exact absurd (by cases hs : s.errorId; simp_all) he
      | cons c t =>
        cases hb : Suppressions.findBadChar (c :: t) 0 with
        | true => rfl
        | false =>
          obtain ⟨h1, h2⟩ := (findBadChar_zero c t).mp hb
          have : matchesIdentRegex s.errorId = true := by
            unfold matchesIdentRegex
            rw [hdata]
            simp only [Bool.and_eq_true, List.all_eq_true]
            exact ⟨h1, fun x hx => by
              have := h2 x hx
              simpa [Suppressions.validIdChar] using this⟩
          rw [this] at hregex
          exact absurd hregex (by simp)
    refine ⟨?_, ?_, ?_⟩
    · rw [show (Suppressions.addSuppression s l).1 =
          "Failed to add suppression. Invalid id \"" ++ s.errorId ++ "\"" from by
        simp [Suppressions.addSuppression, he, hstar, hfbc]]
      intro hc
      have hdata := congrArg String.data hc
      rw [data_append, data_append] at hdata
      rw [show (String.data "") = ([] : List Char) from rfl] at hdata
      rcases List.append_eq_nil.mp hdata with ⟨h1, -⟩
      rcases List.append_eq_nil.mp h1 with ⟨h2, -⟩
      exact absurd h2 (by decide)
    · have hmsg : (Suppressions.addSuppression s l).1 =
          "Failed to add suppression. Invalid id \"" ++ s.errorId ++ "\"" := by
        simp [Suppressions.addSuppression, he, hstar, hfbc]
      rw [hmsg, data_append, data_append, List.append_assoc]
      exact hasSubstring_append _ _ _
    · simp [Suppressions.addSuppression, he, hstar, hfbc]

/-- Without a colon, the first `getline` consumes the whole line. -/
theorem splitFirstColonL_no_colon (l : List Char) (h : ':' ∉ l) :
    splitFirstColonL l = (l, none) := by
  induction l with
  | nil => rfl
  | cons c t ih =>
    have hc : c ≠ ':' := fun he => h (by simp [he])
    simp [splitFirstColonL, hc, ih (fun hm => h (by simp [hm]))]

/-- The first colon splits the line into the part before it and the part
after it. -/
theorem splitFirstColonL_append (eid rest : List Char) (h : ':' ∉ eid) :
    splitFirstColonL (eid ++ ':' :: rest) = (eid, some rest) := by
  induction eid with
  | nil => simp [splitFirstColonL]
  | cons c t ih =>
    have hc : c ≠ ':' := fun he => h (by simp [he])
    simp [splitFirstColonL, hc, ih (fun hm => h (by simp [hm]))]

/-- `rfind` fails on a colon-free list. -/
theorem rfindColon_none (l : List Char) (h : ':' ∉ l) : rfindColon l = none := by
  induction l with
  | nil => rfl
  | cons c t ih =>
    have hc : c ≠ ':' := fun he => h (by simp [he])
    simp [rfindColon, hc, ih (fun hm => h (by simp [hm]))]

/-- `rfind(':')` locates the last colon: the one before a colon-free
suffix. -/
theorem rfindColon_append (f n : List Char) (h : ':' ∉ n) :
    rfindColon (f ++ ':' :: n) = some f.length := by
  induction f with
  | nil => simp [rfindColon, rfindColon_none n h]
  | cons c t ih => simp [rfindColon, ih]

/-- `takeWhile` keeps a list free of the stopping character whole. -/
theorem takeWhile_no_newline (l : List Char) (h : '\n' ∉ l) :
    l.takeWhile (fun c => c ≠ '\n') = l := by
  induction l with
  | nil => rfl
  | cons c t ih =>
    have hc : c ≠ '\n' := fun he => h (by simp [he])
    simp [List.takeWhile_cons, hc]
    intro x hx he
    exact h (List.mem_cons_of_mem c (he ▸ hx))

/-- Taking up to the marker keeps exactly the prefix. -/
theorem take_len_append_cons (f n : List Char) (c : Char) :
    (f ++ c :: n).take f.length = f := by
  induction f with
  | nil => rfl
  | cons x t ih => simp [ih]

/-- Dropping up to the marker leaves the marker and the suffix. -/
theorem drop_len_append_cons (f n : List Char) (c : Char) :
    (f ++ c :: n).drop f.length = c :: n := by
  induction f with
  | nil => rfl
  | cons x t ih => simp [ih]

/-- Dropping past the marker leaves exactly the suffix. -/
theorem drop_len_succ_append_cons (f n : List Char) (c : Char) :
    (f ++ c :: n).drop (f.length + 1) = n := by
  induction f with
  | nil => rfl
  | cons x t ih => simp [ih]

/-- The outer XML loop is the same fold restricted to the children the
inverted name comparison lets through. -/
theorem xmlFold_filter (children : List XMLNode) (l : List Suppression) :
    children.foldl Suppressions.xmlStep l =
      (children.filter (fun e => e.name ≠ "suppress")).foldl
        (fun acc e =>
          (Suppressions.addSuppression (Suppressions.readSuppressionElement e) acc).2) l := by
  induction children generalizing l with
  | nil => rfl
  | cons e t ih =>
    by_cases h : e.name = "suppress"
    · simp [Suppressions.xmlStep, h, List.filter_cons, ih]
    · simp [Suppressions.xmlStep, h, List.filter_cons, ih]

/-- The outer XML loop appends exactly those discovered records whose
errorId the validator accepts — the others are dropped because the
`addSuppression` return value is discarded. -/
theorem xmlFold_append (children : List XMLNode) (l : List Suppression) :
    children.foldl Suppressions.xmlStep l =
      l ++ ((children.filter (fun e => e.name ≠ "suppress")).map
          Suppressions.readSuppressionElement).filter
        (fun s => acceptedId s.errorId) := by
  induction children generalizing l with
  | nil => simp
  | cons e t ih =>
    by_cases h : e.name = "suppress"
    · simp only [List.foldl_cons, Suppressions.xmlStep, h]
      simp [h, ih]
    · cases ha : acceptedId (Suppressions.readSuppressionElement e).errorId with
      | true =>
        simp only [List.foldl_cons, Suppressions.xmlStep, if_pos h,
          addSuppression_valid _ _ ha]
        rw [ih]
        simp [h, ha]
      | false =>
        simp only [List.foldl_cons, Suppressions.xmlStep, if_pos h,
          (addSuppression_invalid _ l (by simpa using ha)).2.2]
        rw [ih]
        simp [h, ha]

/-- `isSuppressedLocal` computes exactly what `isSuppressed` computes:
their bodies are identical. -/
theorem isSuppressedLocal_eq (l : List Suppression) (em : ErrorMessage) :
    Suppressions.isSuppressedLocal l em = Suppressions.isSuppressed l em := by
  induction l with
  | nil => rfl
  | cons s rest ih =>
    simp only [Suppressions.isSuppressed, Suppressions.isSuppressedLocal, ih]

/-- The scan reports suppression exactly when some rule of the list
matches. -/
theorem isSuppressed_fst_iff (l : List Suppression) (em : ErrorMessage) :
    (Suppressions.isSuppressed l em).1 = true ↔
      ∃ s ∈ l, (Suppressions.isMatch s em).1 = true := by
  induction l with
  | nil => simp [Suppressions.isSuppressed]
  | cons s rest ih =>
    simp only [Suppressions.isSuppressed]
    cases hm : (Suppressions.isMatch s em).1 with
    | false => simp [hm, ih]
    | true => simp [hm]

/-- When no rule matches, the scan returns false and the list is returned
entirely unchanged. -/
theorem isSuppressed_nomatch (l : List Suppression) (em : ErrorMessage)
    (h : ∀ s ∈ l, (Suppressions.isMatch s em).1 = false) :
    Suppressions.isSuppressed l em = (false, l) := by
  induction l with
  | nil => rfl
  | cons s rest ih =>
    have hs := h s (by simp)
    simp [Suppressions.isSuppressed, hs, isMatch_false_eq s em hs,
      ih (fun x hx => h x (by simp [hx]))]

/-- When the rules before `s` all fail and `s` matches, the scan stops at
`s`: it returns true, marks `s`, and every other rule — before or after —
is unchanged, in place and in order. -/
theorem isSuppressed_first (a : List Suppression) (s : Suppression)
    (b : List Suppression) (em : ErrorMessage)
    (ha : ∀ x ∈ a, (Suppressions.isMatch x em).1 = false)
    (hs : (Suppressions.isMatch s em).1 = true) :
    Suppressions.isSuppressed (a ++ s :: b) em =
      (true, a ++ { s with matched := true } :: b) := by
  induction a with
  | nil => simp [Suppressions.isSuppressed, hs, isMatch_true_eq s em hs]
  | cons x t ih =>
    have hx := ha x (by simp)
    simp [Suppressions.isSuppressed, hx, isMatch_false_eq x em hx,
      ih (fun y hy => ha y (by simp [hy]))]

/-- On a colon-free tentative fileName the heuristic block does nothing. -/
theorem parseFileLinePart_no_colon (eid fn : List Char) (h : ':' ∉ fn) :
    Suppressions.parseFileLinePart eid fn = ⟨String.mk eid, String.mk fn, 0, "", false⟩ := by
  unfold Suppressions.parseFileLinePart
  rw [rfindColon_none fn h]

/-- The heuristic block on a fileName decomposed at its last colon: the
dot test looks at the colon-free suffix, and the parsed value decides
whether the suffix is stripped. -/
theorem parseFileLinePart_split (eid f n : List Char) (hn : ':' ∉ n) :
    Suppressions.parseFileLinePart eid (f ++ ':' :: n) =
      if '.' ∈ n then ⟨String.mk eid, String.mk (f ++ ':' :: n), 0, "", false⟩
      else if 0 < parseIntPrefix n then
        ⟨String.mk eid, String.mk f, parseIntPrefix n, "", false⟩
      else ⟨String.mk eid, String.mk (f ++ ':' :: n), parseIntPrefix n, "", false⟩ := by
  unfold Suppressions.parseFileLinePart
  rw [rfindColon_append f n hn]
  dsimp only
  rw [drop_len_append_cons, drop_len_succ_append_cons, take_len_append_cons]
  simp [List.mem_cons]

/-- The errorId a parsed line gets is always the segment before the first
colon. -/
theorem parseSuppressionLine_errorId (line : List Char) :
    (Suppressions.parseSuppressionLine line).errorId = String.mk (splitFirstColonL line).1 := by
  unfold Suppressions.parseSuppressionLine
  rcases hsp : splitFirstColonL line with ⟨eid, rest⟩
  cases rest with
  | none => rfl
  | some r =>
    simp only []
    unfold Suppressions.parseFileLinePart
    cases hr : rfindColon (r.takeWhile (fun c => c ≠ '\n')) with
    | none => rfl
    | some pos =>
      dsimp only
      split_ifs <;> rfl

/-- A newline does not occur in a remainder built from newline-free parts
around a colon. -/
theorem no_newline_append (f n : List Char) (hf : '\n' ∉ f) (hn : '\n' ∉ n) :
    '\n' ∉ f ++ ':' :: n := by
  intro hm
  rcases List.mem_append.mp hm with h | h
  · exact hf h
  · rcases List.mem_cons.mp h with h | h
    · exact absurd h (by decide)
    · exact hn h

/-- C5: `isMatch(s, d)` returns true if and only if all four hold:
`s.errorId` is empty or equals `d.errorId` exactly; `s.fileName` is empty
or equals `d.fileName` exactly; `s.lineNumber <= 0` or equals
`d.lineNumber`; `s.symbolName` is empty or `s.symbolName` followed by a
newline occurs as a substring of `d.symbolNames`. -/
theorem c5_isMatch_four_constraints (s : Suppression) (em : ErrorMessage) :
    (Suppressions.isMatch s em).1 = true ↔
      (s.errorId = "" ∨ s.errorId = em.errorId) ∧
      (s.fileName = "" ∨ s.fileName = em.fileName) ∧
      (s.lineNumber ≤ 0 ∨ s.lineNumber = em.lineNumber) ∧
      (s.symbolName = "" ∨
        hasSubstring em.symbolNames.data (s.symbolName ++ "\n").data = true) :=
  isMatch_fst_iff s em

/-- C1 counterexample: the all-"any" rule with errorId `"*"` does NOT
match a `nullPointer` diagnostic — `isMatch` compares the stored `"*"`
literally, so both `isMatch` and `isSuppressed` report false. -/
theorem c1_star_rule_counterexample :
    (Suppressions.isMatch ⟨"*", "", 0, "", false⟩ ⟨"nullPointer", "a.c", 5, ""⟩).1 = false ∧
    (Suppressions.isSuppressed [⟨"*", "", 0, "", false⟩]
      ⟨"nullPointer", "a.c", 5, ""⟩).1 = false := by
  decide

/-- C1 amended: a Suppression whose errorId is EMPTY (with empty fileName,
lineNumber at most 0 and empty symbolName) matches every diagnostic, and
`isSuppressed` on any list containing such a rule returns true; a rule
whose errorId is the literal `"*"` is compared literally and matches
exactly the diagnostics whose own errorId is `"*"`. -/
theorem c1_any_rule_matches_all (d : ErrorMessage) (l1 l2 : List Suppression) :
    (Suppressions.isMatch ⟨"", "", 0, "", false⟩ d).1 = true ∧
    (Suppressions.isSuppressed (l1 ++ ⟨"", "", 0, "", false⟩ :: l2) d).1 = true ∧
    ((Suppressions.isMatch ⟨"*", "", 0, "", false⟩ d).1 = true ↔ d.errorId = "*") := by
  have hall : (Suppressions.isMatch ⟨"", "", 0, "", false⟩ d).1 = true := by
    rw [isMatch_fst_iff]
    exact ⟨Or.inl rfl, Or.inl rfl, Or.inl (le_refl 0), Or.inl rfl⟩
  refine ⟨hall, ?_, ?_, ?_⟩
  · rw [isSuppressed_fst_iff]
    exact ⟨⟨"", "", 0, "", false⟩,
      List.mem_append_right l1 (List.mem_cons_self _ _), hall⟩
  · intro h
    rcases ((isMatch_fst_iff _ d).mp h).1 with h1 | h1
    · exact absurd h1 (by decide)
    · exact h1.symm
  · intro h
    rw [isMatch_fst_iff]
    exact ⟨Or.inr h.symm, Or.inl rfl, Or.inl (le_refl 0), Or.inl rfl⟩

/-- C3 counterexample: a rule with symbolName `"foo"` matches a
diagnostic whose symbolNames is `"bazfoo\n"`, although `"foo"` is not one
of the listed symbols (the only complete entry is `"bazfoo"`): the
substring search also fires on proper suffixes of entries. -/
theorem c3_suffix_counterexample :
    (Suppressions.isMatch ⟨"", "", 0, "foo", false⟩ ⟨"id", "f.c", 3, "bazfoo\n"⟩).1 = true ∧
    "foo" ∉ symbolEntries "bazfoo\n" := by
  decide

/-- C3 amended: for a rule constraining only the symbol (non-empty
symbolName, other fields "any"), `isMatch` succeeds exactly when
`symbolName` followed by a newline occurs as a substring of the
diagnostic's symbolNames; hence `"foo"` matches `"foo\nbar\n"` and not
`"foobar\n"`, but matching is not limited to complete entries — a
symbolName that is a suffix of a listed symbol also matches. -/
theorem c3_symbolName_substring (sym : String) (d : ErrorMessage) (hsym : sym ≠ "") :
    ((Suppressions.isMatch ⟨"", "", 0, sym, false⟩ d).1 = true ↔
      hasSubstring d.symbolNames.data (sym ++ "\n").data = true) ∧
    (Suppressions.isMatch ⟨"", "", 0, "foo", false⟩ ⟨"", "", 0, "foo\nbar\n"⟩).1 = true ∧
    (Suppressions.isMatch ⟨"", "", 0, "foo", false⟩ ⟨"", "", 0, "foobar\n"⟩).1 = false := by
  refine ⟨?_, by decide, by decide⟩
  rw [isMatch_fst_iff]
  constructor
  · rintro ⟨-, -, -, h4⟩
    exact h4.resolve_left hsym
  · intro h
    exact ⟨Or.inl rfl, Or.inl rfl, Or.inl (le_refl 0), Or.inr h⟩

/-- C3 witness: the amended theorem applied at symbolName `"foo"` against
symbolNames `"bazfoo\n"`. -/
theorem c3_symbolName_substring_witness :
    (Suppressions.isMatch ⟨"", "", 0, "foo", false⟩ ⟨"", "", 0, "bazfoo\n"⟩).1 = true :=
  ((c3_symbolName_substring "foo" ⟨"", "", 0, "bazfoo\n"⟩ (by decide)).1).mpr (by decide)

/-- C9: `isSuppressed` and `isSuppressedLocal` behave identically; the
scan reports true exactly when some rule matches; when nothing matches the
list is unchanged; when a first match exists the scan stops there, marks
only that rule's `matched` flag and leaves every other rule, the length
and the order unchanged. -/
theorem c9_isSuppressed_scan (l : List Suppression) (em : ErrorMessage) :
    Suppressions.isSuppressedLocal l em = Suppressions.isSuppressed l em ∧
    ((Suppressions.isSuppressed l em).1 = true ↔
      ∃ s ∈ l, (Suppressions.isMatch s em).1 = true) ∧
    ((∀ s ∈ l, (Suppressions.isMatch s em).1 = false) →
      Suppressions.isSuppressed l em = (false, l)) ∧
    (∀ (a : List Suppression) (s : Suppression) (b : List Suppression),
      l = a ++ s :: b →
      (∀ x ∈ a, (Suppressions.isMatch x em).1 = false) →
      (Suppressions.isMatch s em).1 = true →
      Suppressions.isSuppressed l em = (true, a ++ { s with matched := true } :: b)) :=
  ⟨isSuppressedLocal_eq l em, isSuppressed_fst_iff l em, isSuppressed_nomatch l em,
    fun a s b hl ha hs => hl ▸ isSuppressed_first a s b em ha hs⟩

/-- C9 witness: a three-rule list where only the middle rule matches — the
scan returns true, marks exactly that rule, and both entry points agree. -/
theorem c9_isSuppressed_scan_witness :
    Suppressions.isSuppressed
        [⟨"castExpression", "", 0, "", false⟩, ⟨"nullPointer", "", 0, "", false⟩,
         ⟨"*", "", 0, "", false⟩] ⟨"nullPointer", "a.c", 5, ""⟩ =
      (true, [⟨"castExpression", "", 0, "", false⟩, ⟨"nullPointer", "", 0, "", true⟩,
         ⟨"*", "", 0, "", false⟩]) ∧
    Suppressions.isSuppressedLocal
        [⟨"castExpression", "", 0, "", false⟩, ⟨"nullPointer", "", 0, "", false⟩,
         ⟨"*", "", 0, "", false⟩] ⟨"nullPointer", "a.c", 5, ""⟩ =
      Suppressions.isSuppressed
        [⟨"castExpression", "", 0, "", false⟩, ⟨"nullPointer", "", 0, "", false⟩,
         ⟨"*", "", 0, "", false⟩] ⟨"nullPointer", "a.c", 5, ""⟩ := by
  have h := c9_isSuppressed_scan
    [⟨"castExpression", "", 0, "", false⟩, ⟨"nullPointer", "", 0, "", false⟩,
     ⟨"*", "", 0, "", false⟩] ⟨"nullPointer", "a.c", 5, ""⟩
  exact ⟨h.2.2.2 [⟨"castExpression", "", 0, "", false⟩] ⟨"nullPointer", "", 0, "", false⟩
      [⟨"*", "", 0, "", false⟩] rfl (by decide) (by decide), h.1⟩

/-- C6: `addSuppression` returns the empty string and appends exactly when
the errorId is the literal `"*"` or matches `[A-Za-z_][A-Za-z0-9_]*`; any
other errorId yields a non-empty message containing the offending id and
leaves the list unchanged. -/
theorem c6_addSuppression_validation (s : Suppression) (l : List Suppression) :
    (Suppressions.addSuppression s l = ("", l ++ [s]) ↔
      (s.errorId = "*" ∨ matchesIdentRegex s.errorId = true)) ∧
    (¬(s.errorId = "*" ∨ matchesIdentRegex s.errorId = true) →
      (Suppressions.addSuppression s l).1 ≠ "" ∧
      hasSubstring (Suppressions.addSuppression s l).1.data s.errorId.data = true ∧
      (Suppressions.addSuppression s l).2 = l) := by
  by_cases h : acceptedId s.errorId = true
  · have hid : s.errorId = "*" ∨ matchesIdentRegex s.errorId = true := by
      simpa [acceptedId] using h
    exact ⟨iff_of_true (addSuppression_valid s l h) hid, fun hc => absurd hid hc⟩
  · have hf : acceptedId s.errorId = false := by simpa using h
    have hin := addSuppression_invalid s l hf
    have hid : ¬(s.errorId = "*" ∨ matchesIdentRegex s.errorId = true) := by
      simp only [acceptedId, Bool.or_eq_false_iff, decide_eq_false_iff_not] at hf
      rintro (hc | hc)
      · exact hf.1 hc
      · rw [hc] at hf
        exact absurd hf.2 (by simp)
    refine ⟨iff_of_false ?_ hid, fun _ => hin⟩
    intro hc
    exact hin.1 (by rw [hc])

/-- C6 witness: the invalid id `"1bad"` is rejected with the list
unchanged, and the valid id `"uninitvar"` is appended with an empty error
string. -/
theorem c6_addSuppression_validation_witness :
    (Suppressions.addSuppression ⟨"1bad", "x.c", 2, "", false⟩ []).2 = [] ∧
    Suppressions.addSuppression ⟨"uninitvar", "", 0, "", false⟩ [] =
      ("", [⟨"uninitvar", "", 0, "", false⟩]) := by
  have h1 := c6_addSuppression_validation ⟨"1bad", "x.c", 2, "", false⟩ []
  have h2 := c6_addSuppression_validation ⟨"uninitvar", "", 0, "", false⟩ []
  exact ⟨(h1.2 (by decide)).2.2, h2.1.mpr (Or.inr (by decide))⟩

/-- C8: the glob matcher on all of the spec's vectors. -/
theorem c8_matchglob_vectors :
    matchglob "*.cpp" "foo.cpp" = some true ∧
    matchglob "*.cpp" "foo.cpp.bak" = some false ∧
    matchglob "a?c" "abc" = some true ∧
    matchglob "a?c" "ac" = some false ∧
    matchglob "**" "anything" = some true ∧
    matchglob "*" "" = some true ∧
    matchglob "abc" "abcd" = some false := by
  decide

/-- C10: only `XML_ERROR_FILE_NOT_FOUND` takes the error branch of
`parseXmlFile`; any other load failure reaches the unconditional
`FirstChildElement` call on the null root pointer (no result, modelled
`none`), and on a loaded document the returned string is always empty. -/
theorem c10_parseXmlFile_error_branch :
    (∀ l : List Suppression, Suppressions.parseXmlFile XMLLoadResult.loadError l = none) ∧
    (∀ l : List Suppression,
      Suppressions.parseXmlFile XMLLoadResult.fileNotFound l = some ("File not found", l)) ∧
    (∀ (root : XMLNode) (l : List Suppression),
      (Suppressions.parseXmlFile (XMLLoadResult.ok root) l).map Prod.fst = some "") :=
  ⟨fun _ => rfl, fun _ => rfl, fun _ _ => rfl⟩

/-- C2: `parseXmlFile` populates a record and passes it to
`addSuppression` exactly for the root children whose tag is NOT
`"suppress"`, skipping real `<suppress>` elements; the record is filled
from the `id`, `fileName`, `lineNumber`, `symbolName` sub-elements. -/
theorem c2_parseXmlFile_inverted_comparison :
    (∀ (root : XMLNode) (l : List Suppression),
      Suppressions.parseXmlFile (XMLLoadResult.ok root) l =
        some ("", (root.children.filter (fun e => e.name ≠ "suppress")).foldl
          (fun acc e =>
            (Suppressions.addSuppression (Suppressions.readSuppressionElement e) acc).2) l)) ∧
    Suppressions.parseXmlFile
        (XMLLoadResult.ok ⟨"root", none, [⟨"suppress", none, [⟨"id", some "abc", []⟩]⟩]⟩) [] =
      some ("", []) ∧
    Suppressions.parseXmlFile
        (XMLLoadResult.ok ⟨"root", none, [⟨"entry", none, [⟨"id", some "abc", []⟩]⟩]⟩) [] =
      some ("", [⟨"abc", "", 0, "", false⟩]) ∧
    Suppressions.readSuppressionElement ⟨"entry", none,
        [⟨"id", some "uninitvar", []⟩, ⟨"fileName", some "a.c", []⟩,
         ⟨"lineNumber", some "7", []⟩, ⟨"symbolName", some "x", []⟩]⟩ =
      ⟨"uninitvar", "a.c", 7, "x", false⟩ :=
  ⟨fun root l => congrArg (fun x => some ("", x)) (xmlFold_filter root.children l),
    by decide, by decide, by decide⟩

/-- C4 counterexample: a document whose one (processed) child carries the
invalid id `"1bad"` — `parseXmlFile` reports success with the empty
string, yet the discovered rule was dropped because the `addSuppression`
error return is discarded. -/
theorem c4_silent_drop_counterexample :
    Suppressions.parseXmlFile
        (XMLLoadResult.ok ⟨"suppressions", none, [⟨"entry", none, [⟨"id", some "1bad", []⟩]⟩]⟩)
        [] = some ("", []) ∧
    discoveredRules ⟨"suppressions", none, [⟨"entry", none, [⟨"id", some "1bad", []⟩]⟩]⟩ =
      [⟨"1bad", "", 0, "", false⟩] ∧
    (⟨"1bad", "", 0, "", false⟩ : Suppression) ∉ ([] : List Suppression) := by
  decide

/-- C4 amended: `parseXmlFile` returns exactly `"File not found"` when the
file is missing; on a successfully loaded document it returns the empty
string and appends exactly those discovered rules whose errorId the
validator accepts — discovered rules failing validation are silently
dropped, because the `addSuppression` return value is ignored. -/
theorem c4_parseXmlFile_contract :
    (∀ l : List Suppression,
      Suppressions.parseXmlFile XMLLoadResult.fileNotFound l = some ("File not found", l)) ∧
    (∀ (root : XMLNode) (l : List Suppression),
      Suppressions.parseXmlFile (XMLLoadResult.ok root) l =
        some ("", l ++ (discoveredRules root).filter (fun s => acceptedId s.errorId))) :=
  ⟨fun _ => rfl, fun root l => by
    show some ("", root.children.foldl Suppressions.xmlStep l) = _
    rw [xmlFold_append]
    rfl⟩

/-- C7: `addSuppressionLine` splits at the first colon into errorId and
remainder; a remainder with a last colon followed by a dot-free suffix
that parses to a positive integer is split into fileName and lineNumber,
any other remainder stays whole as the fileName with lineNumber at most 0;
`"uninitvar:foo.c:10"` and `"uninitvar:C:path.c"` parse as the spec's
round-trip vectors state. -/
theorem c7_addSuppressionLine_parsing :
    (∀ line : List Char, ':' ∉ line →
      Suppressions.parseSuppressionLine line = ⟨String.mk line, "", 0, "", false⟩) ∧
    (∀ eid rest : List Char, ':' ∉ eid →
      (Suppressions.parseSuppressionLine (eid ++ ':' :: rest)).errorId = String.mk eid) ∧
    (∀ eid f n : List Char, ':' ∉ eid → '\n' ∉ f → '\n' ∉ n → ':' ∉ n → '.' ∉ n →
      0 < parseIntPrefix n →
      Suppressions.parseSuppressionLine (eid ++ ':' :: (f ++ ':' :: n)) =
        ⟨String.mk eid, String.mk f, parseIntPrefix n, "", false⟩) ∧
    (∀ eid f n : List Char, ':' ∉ eid → '\n' ∉ f → '\n' ∉ n → ':' ∉ n →
      ('.' ∈ n ∨ parseIntPrefix n ≤ 0) →
      (Suppressions.parseSuppressionLine (eid ++ ':' :: (f ++ ':' :: n))).fileName =
        String.mk (f ++ ':' :: n) ∧
      (Suppressions.parseSuppressionLine (eid ++ ':' :: (f ++ ':' :: n))).lineNumber ≤ 0) ∧
    Suppressions.addSuppressionLine "uninitvar:foo.c:10" [] =
      ("", [⟨"uninitvar", "foo.c", 10, "", false⟩]) ∧
    Suppressions.addSuppressionLine "uninitvar:C:path.c" [] =
      ("", [⟨"uninitvar", "C:path.c", 0, "", false⟩]) := by
  refine ⟨?_, ?_, ?_, ?_, by decide, by decide⟩
  · intro line h
    unfold Suppressions.parseSuppressionLine
    rw [splitFirstColonL_no_colon line h]
  · intro eid rest h
    rw [parseSuppressionLine_errorId, splitFirstColonL_append eid rest h]
  · intro eid f n heid hf hn hcn hdot hpos
    unfold Suppressions.parseSuppressionLine
    rw [splitFirstColonL_append eid _ heid]
    dsimp only
    rw [takeWhile_no_newline _ (no_newline_append f n hf hn),
      parseFileLinePart_split eid f n hcn, if_neg hdot, if_pos hpos]
  · intro eid f n heid hf hn hcn hd
    unfold Suppressions.parseSuppressionLine
    rw [splitFirstColonL_append eid _ heid]
    dsimp only
    rw [takeWhile_no_newline _ (no_newline_append f n hf hn),
      parseFileLinePart_split eid f n hcn]
    rcases hd with hd | hd
    · rw [if_pos hd]
      exact ⟨rfl, le_refl 0⟩
    · by_cases hdot : '.' ∈ n
      · rw [if_pos hdot]
        exact ⟨rfl, le_refl 0⟩
      · rw [if_neg hdot, if_neg (by omega)]
        exact ⟨rfl, hd⟩

/-- C7 witness: the split parts applied at concrete inputs — a colon-free
line, a split with positive line number, and a split blocked by a dot in
the suffix. -/
theorem c7_addSuppressionLine_parsing_witness :
    Suppressions.parseSuppressionLine ("nofile".data) = ⟨"nofile", "", 0, "", false⟩ ∧
    (Suppressions.parseSuppressionLine ("err".data ++ ':' :: ("a".data ++ ':' :: "7".data))).errorId = "err" ∧
    Suppressions.parseSuppressionLine ("err".data ++ ':' :: ("a".data ++ ':' :: "7".data)) =
      ⟨"err", "a", 7, "", false⟩ ∧
    (Suppressions.parseSuppressionLine ("err".data ++ ':' :: ("a".data ++ ':' :: "b.c".data))).fileName =
      String.mk ("a".data ++ ':' :: "b.c".data) := by
  have h := c7_addSuppressionLine_parsing
  refine ⟨?_, ?_, ?_, ?_⟩
  · exact (h.1 ("nofile".data) (by decide)).trans (by decide)
  · exact (h.2.1 ("err".data) ("a".data ++ ':' :: "7".data) (by decide)).trans (by decide)
  · exact (h.2.2.1 ("err".data) ("a".data) ("7".data) (by decide) (by decide) (by decide)
      (by decide) (by decide) (by decide)).trans (by decide)
  · exact (h.2.2.2.1 ("err".data) ("a".data) ("b.c".data) (by decide) (by decide) (by decide)
      (by decide) (Or.inl (by decide))).1
